import Mathlib

/-!
# Verification of the django-axes database handler

A shallow embedding of `axes/handlers/database.py` (`AxesDatabaseHandler`):
the login-failure tracking and lockout logic, the success-path reset, and
the logout-path access-log update.

The ORM store is modelled as an explicit list of `AccessAttempt` rows plus
a list of `AccessLog` rows inside a `DB` state; each handler method is a
pure state transformer.  The helper functions imported from
`axes.attempts` / `axes.helpers` (`clean_expired_user_attempts`,
`get_user_attempts`, `is_user_attempt_whitelisted`, `reset_user_attempts`,
client-field extraction) are not part of the given source file, so they are
modelled from the spec's Attempt Store contract, as noted on each
definition.  Time is a `Nat`; the identity key produced by the client
identity resolver is an abstract `String` carried on the request.
-/

namespace Axes

/-- A failed login attempt row (`axes.models.AccessAttempt`), extended with
the resolved identity key used for aggregation. -/
structure AccessAttempt where
  identity : String
  username : String
  ip_address : String
  user_agent : String
  get_data : String
  post_data : String
  http_accept : String
  path_info : String
  failures_since_start : Nat
  attempt_time : Nat
deriving DecidableEq

/-- An access-history row (`axes.models.AccessLog`). -/
structure AccessLog where
  username : String
  ip_address : String
  user_agent : String
  http_accept : String
  path_info : String
  attempt_time : Nat
  logout_time : Option Nat
  trusted : Bool
deriving DecidableEq

/-- The database state seen by the handler. -/
structure DB where
  attempts : List AccessAttempt
  access_logs : List AccessLog
deriving DecidableEq

/-- Read-only configuration (`axes.conf.settings`); `whitelist` abstracts
`is_user_attempt_whitelisted` over resolved identity keys. -/
structure Config where
  failure_limit : Nat
  cooldown_period : Nat
  reset_on_success : Bool
  disable_access_log : Bool
  disable_success_access_log : Bool
  whitelist : String → Bool

/-- A request together with the client fields the helpers extract from it
(`get_client_username`, `get_client_ip_address`, `get_client_user_agent`,
`get_client_path_info`, `get_client_http_accept`, `get_query_str` on GET
and POST) and the resolved identity key. -/
structure Request where
  identity : String
  username : String
  ip_address : String
  user_agent : String
  path_info : String
  http_accept : String
  get_data : String
  post_data : String
deriving DecidableEq

/-- Outcome of `user_login_failed`: missing-request soft no-op, whitelisted
short-circuit, failure recorded, or the `AxesSignalPermissionDenied` raise. -/
inductive LoginResult where
  | missingRequest
  | whitelisted
  | recorded
  | lockedOut
deriving DecidableEq

/-- Payload of the `user_locked_out` signal sent on lockout. -/
structure LockoutEvent where
  request : Request
  username : String
  ip_address : String
deriving DecidableEq

/-- An attempt row is active at time `t` when its last attempt lies within
the cooldown period of `t`. -/
def isActive (cooldown t : Nat) (r : AccessAttempt) : Bool :=
  t ≤ r.attempt_time + cooldown

/-- Modelled from the spec: `sweep_expired(as_of)` of the Attempt Store —
`clean_expired_user_attempts` removes every attempt row whose last attempt
time is older than the configured cooldown period. -/
def clean_expired_user_attempts (cooldown t : Nat) (l : List AccessAttempt) :
    List AccessAttempt :=
  l.filter (isActive cooldown t)

/-- Modelled from the spec: `find_active(identity, as_of)` of the Attempt
Store — `get_user_attempts` returns the attempt rows for the resolved
identity key that are still inside the active window at `t`. -/
def get_user_attempts (id : String) (cooldown t : Nat) (l : List AccessAttempt) :
    List AccessAttempt :=
  l.filter (fun r => r.identity == id && isActive cooldown t r)

/-- `AxesDatabaseHandler.get_failures`: the maximum `failures_since_start`
over the identity's active attempt rows, or 0 when none exist. -/
def get_failures (id : String) (cooldown t : Nat) (l : List AccessAttempt) : Nat :=
  ((get_user_attempts id cooldown t l).map (fun r => r.failures_since_start)).foldr max 0

/-- Modelled from the spec: the base handler's lockout test compares the
current failure count against the configured failure limit. -/
def is_locked_base (cfg : Config) (db : DB) (req : Request) (t : Nat) : Bool :=
  cfg.failure_limit ≤ get_failures req.identity cfg.cooldown_period t db.attempts

/-- `AxesDatabaseHandler.is_locked`: whitelisted clients are never locked;
otherwise defer to the base handler's failure-limit check. -/
def is_locked (cfg : Config) (db : DB) (req : Request) (t : Nat) : Bool :=
  if cfg.whitelist req.identity then false
  else is_locked_base cfg db req t

/-- Separator inserted between accumulated GET/POST payloads on update. -/
def separator : String := "\n---------\n"

/-- The fresh row created by `AccessAttempt.objects.create` for a first
failure. -/
def newAccessAttempt (req : Request) (n t : Nat) : AccessAttempt :=
  { identity := req.identity
    username := req.username
    ip_address := req.ip_address
    user_agent := req.user_agent
    get_data := req.get_data
    post_data := req.post_data
    http_accept := req.http_accept
    path_info := req.path_info
    failures_since_start := n
    attempt_time := t }

/-- The in-place update applied by `attempts.update(...)` to every matching
row: concatenate GET/POST payloads, overwrite `http_accept` and
`path_info`, set the new failure count and attempt time; the username,
IP address and user agent fields are deliberately left untouched. -/
def updateAccessAttempt (req : Request) (n t : Nat) (r : AccessAttempt) : AccessAttempt :=
  { r with
    get_data := r.get_data ++ separator ++ req.get_data
    post_data := r.post_data ++ separator ++ req.post_data
    http_accept := req.http_accept
    path_info := req.path_info
    failures_since_start := n
    attempt_time := t }

/-- `AxesDatabaseHandler.user_login_failed`: sweep expired rows, bail out
without a request, short-circuit whitelisted clients, compute the new
failure count, insert or update the attempt row, and on reaching the
failure limit send the `user_locked_out` signal and raise (modelled as the
`lockedOut` result carrying the event). -/
def user_login_failed (cfg : Config) (db : DB) (request : Option Request)
    (attempt_time : Nat) : DB × LoginResult × Option LockoutEvent :=
  let cleaned := clean_expired_user_attempts cfg.cooldown_period attempt_time db.attempts
  match request with
  | none => ({ db with attempts := cleaned }, LoginResult.missingRequest, none)
  | some req =>
    if cfg.whitelist req.identity then
      ({ db with attempts := cleaned }, LoginResult.whitelisted, none)
    else
      let failures_since_start :=
        1 + get_failures req.identity cfg.cooldown_period attempt_time cleaned
      let attempts2 :=
        if failures_since_start > 1 then
          cleaned.map (fun r =>
            if r.identity == req.identity && isActive cfg.cooldown_period attempt_time r then
              updateAccessAttempt req failures_since_start attempt_time r
            else r)
        else
          cleaned ++ [newAccessAttempt req failures_since_start attempt_time]
      if failures_since_start ≥ cfg.failure_limit then
        ({ db with attempts := attempts2 }, LoginResult.lockedOut,
          some { request := req, username := req.username, ip_address := req.ip_address })
      else
        ({ db with attempts := attempts2 }, LoginResult.recorded, none)

/-- Modelled from the spec: `reset(identity)` of the Attempt Store —
`reset_user_attempts` deletes the identity's attempt rows and returns the
number of cleared rows for observability. -/
def reset_user_attempts (id : String) (l : List AccessAttempt) :
    List AccessAttempt × Nat :=
  (l.filter (fun r => !(r.identity == id)),
   (l.filter (fun r => r.identity == id)).length)

/-- `AxesDatabaseHandler.user_logged_in`: sweep expired rows, append a
trusted access-log row unless success logging is disabled, and when
`AXES_RESET_ON_SUCCESS` is set delete the user's failed attempts,
reporting how many were cleared (`none` when no reset is configured). -/
def user_logged_in (cfg : Config) (db : DB) (req : Request) (attempt_time : Nat) :
    DB × Option Nat :=
  let cleaned := clean_expired_user_attempts cfg.cooldown_period attempt_time db.attempts
  let logs2 :=
    if !cfg.disable_success_access_log then
      db.access_logs ++
        [{ username := req.username
           ip_address := req.ip_address
           user_agent := req.user_agent
           http_accept := req.http_accept
           path_info := req.path_info
           attempt_time := attempt_time
           logout_time := none
           trusted := true }]
    else db.access_logs
  if cfg.reset_on_success then
    let reset := reset_user_attempts req.identity cleaned
    ({ attempts := reset.1, access_logs := logs2 }, some reset.2)
  else
    ({ attempts := cleaned, access_logs := logs2 }, none)

/-- `AxesDatabaseHandler.user_logged_out`: sweep expired rows and, when a
username is known and access logging is enabled, stamp the logout time on
the open access-log rows of that username. -/
def user_logged_out (cfg : Config) (db : DB) (username : String)
    (attempt_time : Nat) : DB :=
  let cleaned := clean_expired_user_attempts cfg.cooldown_period attempt_time db.attempts
  let logs2 :=
    if (username != "") && !cfg.disable_access_log then
      db.access_logs.map (fun e =>
        if e.username == username && e.logout_time.isNone then
          { e with logout_time := some attempt_time }
        else e)
    else db.access_logs
  { attempts := cleaned, access_logs := logs2 }

/-- All attempt rows stored under a given identity key, active or not. -/
def attemptsFor (id : String) (l : List AccessAttempt) : List AccessAttempt :=
  l.filter (fun r => r.identity == id)

/-- Run `user_login_failed` once per time stamp in the list, threading the
database state; models a sequence of consecutive failure events from the
same client. -/
def processFailures (cfg : Config) (db : DB) (req : Request) : List Nat → DB
  | [] => db
  | t :: ts => processFailures cfg (user_login_failed cfg db (some req) t).1 req ts

/-- `chainOk c prev ts` holds when each time stamp in `ts` lies within the
cooldown period of its predecessor (starting from `prev`), so the attempt
row never expires between consecutive failures. -/
def chainOk (cooldown : Nat) : Nat → List Nat → Bool
  | _, [] => true
  | prev, t :: ts => decide (t ≤ prev + cooldown) && chainOk cooldown t ts

/-- The last time stamp of the list, or `prev` when the list is empty. -/
def lastTime (prev : Nat) : List Nat → Nat
  | [] => prev
  | t :: ts => lastTime t ts

/-! ## Concrete instances used by witnesses and counterexamples -/

/-- A configuration with an empty whitelist: limit 3, cooldown 100. -/
def cfgPlain : Config :=
  { failure_limit := 3
    cooldown_period := 100
    reset_on_success := true
    disable_access_log := false
    disable_success_access_log := false
    whitelist := fun _ => false }

/-- A configuration whitelisting every client. -/
def cfgWhite : Config :=
  { cfgPlain with whitelist := fun _ => true }

/-- A sample request for identity key `k`. -/
def reqK : Request :=
  { identity := "k"
    username := "alice"
    ip_address := "10.0.0.1"
    user_agent := "agent1"
    path_info := "/login"
    http_accept := "text/html"
    get_data := "g1"
    post_data := "p1" }

/-- A second request resolving to the same identity key `k` but carrying
different client metadata. -/
def reqK2 : Request :=
  { identity := "k"
    username := "bob"
    ip_address := "10.0.0.2"
    user_agent := "agent2"
    path_info := "/login2"
    http_accept := "application/json"
    get_data := "g2"
    post_data := "p2" }

/-- A stored attempt row for identity `k` with one failure at time 0. -/
def attemptK : AccessAttempt :=
  { identity := "k"
    username := "alice"
    ip_address := "10.0.0.1"
    user_agent := "agent1"
    get_data := "g1"
    post_data := "p1"
    http_accept := "text/html"
    path_info := "/login"
    failures_since_start := 1
    attempt_time := 0 }

/-- An open access-log row for user `u` created at time 1. -/
def logOpenOld : AccessLog :=
  { username := "u"
    ip_address := "10.0.0.1"
    user_agent := "agent1"
    http_accept := "text/html"
    path_info := "/a"
    attempt_time := 1
    logout_time := none
    trusted := true }

/-- A more recent open access-log row for user `u`, created at time 2. -/
def logOpenNew : AccessLog :=
  { logOpenOld with attempt_time := 2, path_info := "/b" }

/-- A database with two open access-log rows for the same user. -/
def dbLogs : DB :=
  { attempts := [], access_logs := [logOpenOld, logOpenNew] }

/-! ## Helper lemmas -/

theorem foldr_max_init (a : Nat) (l : List Nat) :
    l.foldr max a = max a (l.foldr max 0) := by
  induction l with
  | nil => simp
  | cons x l ih =>
    simp only [List.foldr_cons, ih]
    omega

theorem foldr_max_append (l l2 : List Nat) :
    (l ++ l2).foldr max 0 = max (l.foldr max 0) (l2.foldr max 0) := by
  rw [List.foldr_append, foldr_max_init]
  omega

theorem foldr_max_const {α : Type} (n : Nat) (l : List α) (h : l ≠ []) :
    (l.map (fun _ => n)).foldr max 0 = n := by
  induction l with
  | nil => exact absurd rfl h
  | cons x l ih =>
    cases l with
    | nil => simp
    | cons y l2 =>
      simp only [List.map_cons, List.foldr_cons] at ih ⊢
      rw [ih (by simp)]
      omega

theorem foldr_max_mem (l : List Nat) (h : 0 < l.foldr max 0) :
    l.foldr max 0 ∈ l := by
  induction l with
  | nil => simp at h
  | cons x l ih =>
    simp only [List.foldr_cons] at h ⊢
    rcases Nat.le_total (l.foldr max 0) x with hle | hle
    · rw [Nat.max_eq_left hle]; exact List.mem_cons_self x l
    · rw [Nat.max_eq_right hle] at h ⊢
      exact List.mem_cons_of_mem x (ih h)

theorem get_user_attempts_eq_filter (id : String) (c t : Nat) (l : List AccessAttempt) :
    get_user_attempts id c t l = (attemptsFor id l).filter (isActive c t) := by
  induction l with
  | nil => rfl
  | cons a l ih =>
    simp only [get_user_attempts, attemptsFor, List.filter_cons] at ih ⊢
    cases hid : a.identity == id <;> cases ha : isActive c t a <;>
      simp [hid, ha, ih, get_user_attempts, attemptsFor]

theorem attemptsFor_clean (id : String) (c t : Nat) (l : List AccessAttempt) :
    attemptsFor id (clean_expired_user_attempts c t l)
      = (attemptsFor id l).filter (isActive c t) := by
  induction l with
  | nil => rfl
  | cons a l ih =>
    simp only [clean_expired_user_attempts, attemptsFor, List.filter_cons] at ih ⊢
    cases hid : a.identity == id <;> cases ha : isActive c t a <;>
      simp [hid, ha, ih, clean_expired_user_attempts, attemptsFor]

theorem get_user_attempts_clean (id : String) (c t : Nat) (l : List AccessAttempt) :
    get_user_attempts id c t (clean_expired_user_attempts c t l)
      = get_user_attempts id c t l := by
  rw [get_user_attempts_eq_filter, get_user_attempts_eq_filter, attemptsFor_clean,
    List.filter_filter]
  simp

theorem get_failures_clean (id : String) (c t : Nat) (l : List AccessAttempt) :
    get_failures id c t (clean_expired_user_attempts c t l) = get_failures id c t l := by
  simp [get_failures, get_user_attempts_clean]

theorem updateAccessAttempt_identity (req : Request) (n t : Nat) (r : AccessAttempt) :
    (updateAccessAttempt req n t r).identity = r.identity := rfl

theorem isActive_updateAccessAttempt (c t : Nat) (req : Request) (n : Nat)
    (r : AccessAttempt) : isActive c t (updateAccessAttempt req n t r) = true := by
  simp [isActive, updateAccessAttempt]

theorem get_user_attempts_map_cond (id : String) (c t : Nat) (req : Request)
    (n : Nat) (l : List AccessAttempt) :
    get_user_attempts id c t
        (l.map (fun r =>
          if r.identity == id && isActive c t r then updateAccessAttempt req n t r
          else r))
      = (get_user_attempts id c t l).map (updateAccessAttempt req n t) := by
  unfold get_user_attempts
  rw [List.filter_map]
  have h1 : l.filter ((fun r => r.identity == id && isActive c t r) ∘
        (fun r =>
          if r.identity == id && isActive c t r then updateAccessAttempt req n t r
          else r))
      = l.filter (fun r => r.identity == id && isActive c t r) := by
    apply List.filter_congr
    intro r _
    cases h : (r.identity == id && isActive c t r) with
    | false => simp [Function.comp, h]
    | true =>
      rcases Bool.and_eq_true_iff.mp h with ⟨hid, hact⟩
      simp [Function.comp, hact, updateAccessAttempt_identity,
        isActive_updateAccessAttempt, hid]
  rw [h1]
  apply List.map_congr_left
  intro r hr
  exact if_pos (List.mem_filter.mp hr).2

theorem attemptsFor_map_cond (id : String) (c t : Nat) (req : Request)
    (n : Nat) (l : List AccessAttempt) :
    attemptsFor id
        (l.map (fun r =>
          if r.identity == id && isActive c t r then updateAccessAttempt req n t r
          else r))
      = (attemptsFor id l).map (fun r =>
          if isActive c t r then updateAccessAttempt req n t r else r) := by
  unfold attemptsFor
  rw [List.filter_map]
  have h1 : l.filter ((fun r => r.identity == id) ∘
        (fun r =>
          if r.identity == id && isActive c t r then updateAccessAttempt req n t r
          else r))
      = l.filter (fun r => r.identity == id) := by
    apply List.filter_congr
    intro r _
    cases h : (r.identity == id && isActive c t r) with
    | false => simp [Function.comp, h]
    | true =>
      rcases Bool.and_eq_true_iff.mp h with ⟨hid, hact⟩
      simp [Function.comp, hact, updateAccessAttempt_identity, hid]
  rw [h1]
  apply List.map_congr_left
  intro r hr
  have hid := (List.mem_filter.mp hr).2
  cases ha : isActive c t r with
  | false =>
    rw [if_neg (by simp), if_neg (by simp)]
  | true =>
    rw [if_pos (by simp [hid]), if_pos rfl]

theorem user_login_failed_result (cfg : Config) (db : DB) (req : Request) (t : Nat)
    (hw : cfg.whitelist req.identity = false) :
    (user_login_failed cfg db (some req) t).2
      = if 1 + get_failures req.identity cfg.cooldown_period t db.attempts
            ≥ cfg.failure_limit
        then (LoginResult.lockedOut,
              some { request := req, username := req.username,
                     ip_address := req.ip_address })
        else (LoginResult.recorded, none) := by
  simp only [user_login_failed, hw, Bool.false_eq_true, if_false]
  rw [get_failures_clean]
  split <;> rfl

theorem step_create_attempts (cfg : Config) (db : DB) (req : Request) (t : Nat)
    (hw : cfg.whitelist req.identity = false)
    (hf : get_failures req.identity cfg.cooldown_period t db.attempts = 0) :
    (user_login_failed cfg db (some req) t).1.attempts
      = clean_expired_user_attempts cfg.cooldown_period t db.attempts
        ++ [newAccessAttempt req 1 t] := by
  simp only [user_login_failed, hw, Bool.false_eq_true, if_false]
  rw [get_failures_clean, hf]
  simp only [Nat.add_zero, gt_iff_lt, lt_irrefl, if_false]
  split <;> rfl

theorem step_update_attempts (cfg : Config) (db : DB) (req : Request) (t : Nat)
    (hw : cfg.whitelist req.identity = false)
    (hf : 0 < get_failures req.identity cfg.cooldown_period t db.attempts) :
    (user_login_failed cfg db (some req) t).1.attempts
      = (clean_expired_user_attempts cfg.cooldown_period t db.attempts).map
          (fun r =>
            if r.identity == req.identity && isActive cfg.cooldown_period t r then
              updateAccessAttempt req
                (1 + get_failures req.identity cfg.cooldown_period t db.attempts) t r
            else r) := by
  have hgt : 1 + get_failures req.identity cfg.cooldown_period t db.attempts > 1 := by
    omega
  simp only [user_login_failed, hw, Bool.false_eq_true, if_false]
  rw [get_failures_clean]
  simp only [hgt, if_true]
  split <;> rfl

theorem attemptsFor_append (id : String) (l l2 : List AccessAttempt) :
    attemptsFor id (l ++ l2) = attemptsFor id l ++ attemptsFor id l2 := by
  simp [attemptsFor, List.filter_append]

theorem get_failures_append (id : String) (c t : Nat) (l l2 : List AccessAttempt) :
    get_failures id c t (l ++ l2)
      = max (get_failures id c t l) (get_failures id c t l2) := by
  simp only [get_failures, get_user_attempts, List.filter_append, List.map_append,
    foldr_max_append]

theorem get_failures_newAccessAttempt (c t : Nat) (req : Request) (n : Nat) :
    get_failures req.identity c t [newAccessAttempt req n t] = n := by
  have hact : isActive c t (newAccessAttempt req n t) = true := by
    simp [isActive, newAccessAttempt]
  simp [get_failures, get_user_attempts, List.filter, newAccessAttempt, hact, isActive]

theorem get_user_attempts_ne_nil (id : String) (c t : Nat) (l : List AccessAttempt)
    (h : 0 < get_failures id c t l) : get_user_attempts id c t l ≠ [] := by
  intro hnil
  rw [get_failures, hnil] at h
  simp at h

theorem step_create_attemptsFor (cfg : Config) (db : DB) (req : Request) (t : Nat)
    (hw : cfg.whitelist req.identity = false)
    (h0 : attemptsFor req.identity db.attempts = []) :
    attemptsFor req.identity (user_login_failed cfg db (some req) t).1.attempts
      = [newAccessAttempt req 1 t] := by
  have hf : get_failures req.identity cfg.cooldown_period t db.attempts = 0 := by
    rw [get_failures, get_user_attempts_eq_filter, h0]
    rfl
  have hclean : attemptsFor req.identity
      (clean_expired_user_attempts cfg.cooldown_period t db.attempts) = [] := by
    rw [attemptsFor_clean, h0]
    rfl
  rw [step_create_attempts cfg db req t hw hf, attemptsFor_append, hclean]
  simp [attemptsFor, List.filter, newAccessAttempt]

theorem step_update_attemptsFor (cfg : Config) (db : DB) (req : Request) (t : Nat)
    (r : AccessAttempt)
    (hw : cfg.whitelist req.identity = false)
    (h1 : attemptsFor req.identity db.attempts = [r])
    (hact : isActive cfg.cooldown_period t r = true)
    (hpos : 0 < r.failures_since_start) :
    attemptsFor req.identity (user_login_failed cfg db (some req) t).1.attempts
      = [updateAccessAttempt req (1 + r.failures_since_start) t r] := by
  have hgf : get_failures req.identity cfg.cooldown_period t db.attempts
      = r.failures_since_start := by
    rw [get_failures, get_user_attempts_eq_filter, h1]
    simp [List.filter, hact]
  have hf : 0 < get_failures req.identity cfg.cooldown_period t db.attempts := by
    rw [hgf]; exact hpos
  rw [step_update_attempts cfg db req t hw hf, attemptsFor_map_cond, attemptsFor_clean, h1,
    hgf]
  simp [List.filter, hact]

theorem get_failures_user_login_failed (cfg : Config) (db : DB) (req : Request)
    (t : Nat) (hw : cfg.whitelist req.identity = false) :
    get_failures req.identity cfg.cooldown_period t
        (user_login_failed cfg db (some req) t).1.attempts
      = 1 + get_failures req.identity cfg.cooldown_period t db.attempts := by
  rcases Nat.eq_zero_or_pos
      (get_failures req.identity cfg.cooldown_period t db.attempts) with h0 | hpos
  · rw [step_create_attempts cfg db req t hw h0, get_failures_append, get_failures_clean,
      h0, get_failures_newAccessAttempt]
    simp
  · rw [step_update_attempts cfg db req t hw hpos, get_failures]
    rw [get_user_attempts_map_cond, get_user_attempts_clean, List.map_map]
    have hconst : ((get_user_attempts req.identity cfg.cooldown_period t db.attempts).map
          ((fun r => r.failures_since_start) ∘
            updateAccessAttempt req
              (1 + get_failures req.identity cfg.cooldown_period t db.attempts) t))
        = (get_user_attempts req.identity cfg.cooldown_period t db.attempts).map
            (fun _ => 1 + get_failures req.identity cfg.cooldown_period t db.attempts) := by
      apply List.map_congr_left
      intro r _
      rfl
    rw [hconst]
    exact foldr_max_const
      (1 + get_failures req.identity cfg.cooldown_period t db.attempts)
      (get_user_attempts req.identity cfg.cooldown_period t db.attempts)
      (get_user_attempts_ne_nil _ _ _ _ hpos)

theorem filter_not_filter {α : Type} (p : α → Bool) (l : List α) :
    (l.filter (fun r => !(p r))).filter p = [] := by
  induction l with
  | nil => rfl
  | cons a l ih =>
    cases h : p a with
    | false => simp [List.filter_cons, h, ih]
    | true => simp [List.filter_cons, h, ih]

theorem processFailures_invariant (cfg : Config) (req : Request)
    (hw : cfg.whitelist req.identity = false) :
    ∀ (ts : List Nat) (db : DB) (r : AccessAttempt),
      attemptsFor req.identity db.attempts = [r] →
      0 < r.failures_since_start →
      chainOk cfg.cooldown_period r.attempt_time ts = true →
      ∃ r2, attemptsFor req.identity (processFailures cfg db req ts).attempts = [r2]
        ∧ r2.failures_since_start = r.failures_since_start + ts.length
        ∧ r2.attempt_time = lastTime r.attempt_time ts := by
  intro ts
  induction ts with
  | nil =>
    intro db r h1 _ _
    exact ⟨r, h1, by simp, rfl⟩
  | cons t ts ih =>
    intro db r h1 hpos hchain
    simp only [chainOk, Bool.and_eq_true, decide_eq_true_eq] at hchain
    have hact : isActive cfg.cooldown_period t r = true := by
      unfold isActive
      exact decide_eq_true hchain.1
    have hstep := step_update_attemptsFor cfg db req t r hw h1 hact hpos
    have hupd : (updateAccessAttempt req (1 + r.failures_since_start) t r).failures_since_start
        = 1 + r.failures_since_start := rfl
    rcases ih (user_login_failed cfg db (some req) t).1
        (updateAccessAttempt req (1 + r.failures_since_start) t r)
        hstep (by rw [hupd]; omega)
        (by
          have hat : (updateAccessAttempt req (1 + r.failures_since_start) t r).attempt_time
              = t := rfl
          rw [hat]
          exact hchain.2)
      with ⟨r2, hr2, hcount, htime⟩
    refine ⟨r2, ?_, ?_, ?_⟩
    · simpa [processFailures] using hr2
    · rw [hupd] at hcount
      simp only [List.length_cons]
      omega
    · rw [htime]
      rfl

/-! ## Claim theorems -/

/-- C1: for a failure event with a usable request and a non-whitelisted
identity, the updated count `n = 1 + current` is persisted on an active
row for the identity; if `n ≥ failure_limit` the handler yields
`lockedOut` together with the `user_locked_out` event carrying the
request, username and IP address, and otherwise it yields `recorded`
with no event. -/
theorem user_login_failed_threshold (cfg : Config) (db : DB) (req : Request)
    (t : Nat) (hw : cfg.whitelist req.identity = false) :
    (∃ r ∈ get_user_attempts req.identity cfg.cooldown_period t
        (user_login_failed cfg db (some req) t).1.attempts,
      r.failures_since_start
        = 1 + get_failures req.identity cfg.cooldown_period t db.attempts)
    ∧ (cfg.failure_limit
          ≤ 1 + get_failures req.identity cfg.cooldown_period t db.attempts →
        (user_login_failed cfg db (some req) t).2
          = (LoginResult.lockedOut,
             some { request := req, username := req.username,
                    ip_address := req.ip_address }))
    ∧ (1 + get_failures req.identity cfg.cooldown_period t db.attempts
          < cfg.failure_limit →
        (user_login_failed cfg db (some req) t).2 = (LoginResult.recorded, none)) := by
  refine ⟨?_, ?_, ?_⟩
  · have hpost := get_failures_user_login_failed cfg db req t hw
    have h0 : 0 < get_failures req.identity cfg.cooldown_period t
        (user_login_failed cfg db (some req) t).1.attempts := by
      rw [hpost]; omega
    rw [get_failures] at h0 hpost
    have hmem := foldr_max_mem _ h0
    rw [hpost] at hmem
    rcases List.mem_map.mp hmem with ⟨r, hr, hcount⟩
    exact ⟨r, hr, hcount⟩
  · intro hlim
    rw [user_login_failed_result cfg db req t hw, if_pos hlim]
  · intro hlim
    rw [user_login_failed_result cfg db req t hw, if_neg (by omega)]

/-- C1 witness: with limit 3 and a stored count of 2, a third failure for
identity `k` is persisted with count 3, locks out and carries the event. -/
theorem user_login_failed_threshold_witness :
    cfgPlain.whitelist reqK.identity = false
    ∧ ((∃ r ∈ get_user_attempts reqK.identity cfgPlain.cooldown_period 1
          (user_login_failed cfgPlain
            { attempts := [{ attemptK with failures_since_start := 2 }],
              access_logs := [] } (some reqK) 1).1.attempts,
        r.failures_since_start
          = 1 + get_failures reqK.identity cfgPlain.cooldown_period 1
              [{ attemptK with failures_since_start := 2 }])
      ∧ (cfgPlain.failure_limit
            ≤ 1 + get_failures reqK.identity cfgPlain.cooldown_period 1
                [{ attemptK with failures_since_start := 2 }] →
          (user_login_failed cfgPlain
            { attempts := [{ attemptK with failures_since_start := 2 }],
              access_logs := [] } (some reqK) 1).2
            = (LoginResult.lockedOut,
               some { request := reqK, username := reqK.username,
                      ip_address := reqK.ip_address }))
      ∧ (1 + get_failures reqK.identity cfgPlain.cooldown_period 1
            [{ attemptK with failures_since_start := 2 }] < cfgPlain.failure_limit →
          (user_login_failed cfgPlain
            { attempts := [{ attemptK with failures_since_start := 2 }],
              access_logs := [] } (some reqK) 1).2 = (LoginResult.recorded, none))) :=
  ⟨by decide,
   user_login_failed_threshold cfgPlain
     { attempts := [{ attemptK with failures_since_start := 2 }], access_logs := [] }
     reqK 1 (by decide)⟩

/-- C2: once the identity's active-window failure count has reached the
failure limit, a further failure event yields `lockedOut`, and the stored
count afterwards still meets the limit, so the lockout persists until a
reset or window expiry removes the rows. -/
theorem lockout_persists (cfg : Config) (db : DB) (req : Request) (t : Nat)
    (hw : cfg.whitelist req.identity = false)
    (hl : cfg.failure_limit
        ≤ get_failures req.identity cfg.cooldown_period t db.attempts) :
    (user_login_failed cfg db (some req) t).2.1 = LoginResult.lockedOut
    ∧ cfg.failure_limit ≤ get_failures req.identity cfg.cooldown_period t
        (user_login_failed cfg db (some req) t).1.attempts := by
  constructor
  · have h2 := user_login_failed_result cfg db req t hw
    rw [if_pos (by omega)] at h2
    rw [h2]
  · rw [get_failures_user_login_failed cfg db req t hw]
    omega

/-- C2 witness: identity `k` stored at the limit (count 3) locks out again
on the next failure and keeps count at or above the limit. -/
theorem lockout_persists_witness :
    (cfgPlain.whitelist reqK.identity = false
      ∧ cfgPlain.failure_limit
          ≤ get_failures reqK.identity cfgPlain.cooldown_period 1
              [{ attemptK with failures_since_start := 3 }])
    ∧ ((user_login_failed cfgPlain
          { attempts := [{ attemptK with failures_since_start := 3 }],
            access_logs := [] } (some reqK) 1).2.1 = LoginResult.lockedOut
      ∧ cfgPlain.failure_limit
          ≤ get_failures reqK.identity cfgPlain.cooldown_period 1
              (user_login_failed cfgPlain
                { attempts := [{ attemptK with failures_since_start := 3 }],
                  access_logs := [] } (some reqK) 1).1.attempts) :=
  ⟨⟨by decide, by decide⟩,
   lockout_persists cfgPlain
     { attempts := [{ attemptK with failures_since_start := 3 }], access_logs := [] }
     reqK 1 (by decide) (by decide)⟩

/-- C4: for a whitelisted identity the handler returns right after the
whitelist check: the outcome is `whitelisted` with no event, the store is
only swept (no row is created or updated — every surviving row was already
stored), and `is_locked` reports false regardless of the stored count. -/
theorem whitelisted_never_locked (cfg : Config) (db : DB) (req : Request) (t : Nat)
    (hw : cfg.whitelist req.identity = true) :
    user_login_failed cfg db (some req) t
      = ({ db with
            attempts := clean_expired_user_attempts cfg.cooldown_period t db.attempts },
         LoginResult.whitelisted, none)
    ∧ (∀ a ∈ (user_login_failed cfg db (some req) t).1.attempts, a ∈ db.attempts)
    ∧ is_locked cfg db req t = false := by
  have h1 : user_login_failed cfg db (some req) t
      = ({ db with
            attempts := clean_expired_user_attempts cfg.cooldown_period t db.attempts },
         LoginResult.whitelisted, none) := by
    simp [user_login_failed, hw]
  refine ⟨h1, ?_, ?_⟩
  · intro a ha
    rw [h1] at ha
    have ha2 : a ∈ clean_expired_user_attempts cfg.cooldown_period t db.attempts := ha
    unfold clean_expired_user_attempts at ha2
    exact List.mem_of_mem_filter ha2
  · simp [is_locked, hw]

/-- C4 witness: with every client whitelisted, a failure for identity `k`
over a store holding 99 failures neither mutates the store nor locks. -/
theorem whitelisted_never_locked_witness :
    cfgWhite.whitelist reqK.identity = true
    ∧ (user_login_failed cfgWhite
          { attempts := [{ attemptK with failures_since_start := 99 }],
            access_logs := [] } (some reqK) 1
        = ({ attempts := [{ attemptK with failures_since_start := 99 }],
             access_logs := [] },
           LoginResult.whitelisted, none)
      ∧ (∀ a ∈ (user_login_failed cfgWhite
            { attempts := [{ attemptK with failures_since_start := 99 }],
              access_logs := [] } (some reqK) 1).1.attempts,
          a ∈ [{ attemptK with failures_since_start := 99 }])
      ∧ is_locked cfgWhite
          { attempts := [{ attemptK with failures_since_start := 99 }],
            access_logs := [] } reqK 1 = false) := by
  constructor
  · decide
  · have h := whitelisted_never_locked cfgWhite
      { attempts := [{ attemptK with failures_since_start := 99 }], access_logs := [] }
      reqK 1 (by decide)
    refine ⟨?_, h.2.1, h.2.2⟩
    rw [h.1]
    decide

/-- C5: the expiry sweep runs before the failure count is read: when the
identity's only stored row is already expired at the time of the new
failure, the handler creates a fresh row with count 1 instead of
incrementing the stale count. -/
theorem expired_record_fresh_start (cfg : Config) (db : DB) (req : Request)
    (t : Nat) (r : AccessAttempt)
    (hw : cfg.whitelist req.identity = false)
    (h1 : attemptsFor req.identity db.attempts = [r])
    (hexp : r.attempt_time + cfg.cooldown_period < t) :
    attemptsFor req.identity (user_login_failed cfg db (some req) t).1.attempts
      = [newAccessAttempt req 1 t] := by
  have hact : isActive cfg.cooldown_period t r = false := by
    unfold isActive
    simp only [decide_eq_false_iff_not]
    omega
  have hf : get_failures req.identity cfg.cooldown_period t db.attempts = 0 := by
    rw [get_failures, get_user_attempts_eq_filter, h1]
    simp [List.filter, hact]
  have hclean : attemptsFor req.identity
      (clean_expired_user_attempts cfg.cooldown_period t db.attempts) = [] := by
    rw [attemptsFor_clean, h1]
    simp [List.filter, hact]
  rw [step_create_attempts cfg db req t hw hf, attemptsFor_append, hclean]
  simp [attemptsFor, List.filter, newAccessAttempt]

/-- C5 witness: the only row for `k` expired (time 0, cooldown 100,
failure at time 200), so the failure at time 200 starts a fresh row with
count 1. -/
theorem expired_record_fresh_start_witness :
    (cfgPlain.whitelist reqK.identity = false
      ∧ attemptsFor reqK.identity [attemptK] = [attemptK]
      ∧ attemptK.attempt_time + cfgPlain.cooldown_period < 200)
    ∧ attemptsFor reqK.identity
        (user_login_failed cfgPlain { attempts := [attemptK], access_logs := [] }
          (some reqK) 200).1.attempts
      = [newAccessAttempt reqK 1 200] :=
  ⟨⟨by decide, by decide, by decide⟩,
   expired_record_fresh_start cfgPlain { attempts := [attemptK], access_logs := [] }
     reqK 200 attemptK (by decide) (by decide) (by decide)⟩

/-- C8: a failure event without a request is a soft no-op: the outcome is
`missingRequest`, no event or raise reaches the caller, and no attempt row
is created or updated (every surviving row was already stored). -/
theorem missing_request_soft_noop (cfg : Config) (db : DB) (t : Nat) :
    user_login_failed cfg db none t
      = ({ db with
            attempts := clean_expired_user_attempts cfg.cooldown_period t db.attempts },
         LoginResult.missingRequest, none)
    ∧ ∀ a ∈ (user_login_failed cfg db none t).1.attempts, a ∈ db.attempts := by
  refine ⟨rfl, ?_⟩
  intro a ha
  have ha2 : a ∈ clean_expired_user_attempts cfg.cooldown_period t db.attempts := ha
  unfold clean_expired_user_attempts at ha2
  exact List.mem_of_mem_filter ha2

/-- C10: even the missing-request soft no-op first runs the global expiry
sweep, so a call with no request still deletes every expired attempt row:
the resulting store is exactly the sweep of the old one, and a stored row
older than the cooldown is gone afterwards. -/
theorem missing_request_still_sweeps (cfg : Config) (db : DB) (t : Nat)
    (a : AccessAttempt) (ha : a ∈ db.attempts)
    (hexp : a.attempt_time + cfg.cooldown_period < t) :
    (user_login_failed cfg db none t).1.attempts
        = clean_expired_user_attempts cfg.cooldown_period t db.attempts
    ∧ a ∉ (user_login_failed cfg db none t).1.attempts := by
  refine ⟨rfl, ?_⟩
  intro hmem
  have hmem2 : a ∈ clean_expired_user_attempts cfg.cooldown_period t db.attempts := hmem
  unfold clean_expired_user_attempts at hmem2
  have hkeep := (List.mem_filter.mp hmem2).2
  unfold isActive at hkeep
  simp only [decide_eq_true_eq] at hkeep
  omega

/-- C10 witness: a call with no request at time 200 deletes the expired row
for `k` (stored at time 0 with cooldown 100). -/
theorem missing_request_still_sweeps_witness :
    (attemptK ∈ [attemptK]
      ∧ attemptK.attempt_time + cfgPlain.cooldown_period < 200)
    ∧ ((user_login_failed cfgPlain { attempts := [attemptK], access_logs := [] }
          none 200).1.attempts
        = clean_expired_user_attempts cfgPlain.cooldown_period 200 [attemptK]
      ∧ attemptK ∉ (user_login_failed cfgPlain
          { attempts := [attemptK], access_logs := [] } none 200).1.attempts) :=
  ⟨⟨by decide, by decide⟩,
   missing_request_still_sweeps cfgPlain { attempts := [attemptK], access_logs := [] }
     200 attemptK (by decide) (by decide)⟩

/-- C3: starting from a store with no row for the identity, a sequence of
N consecutive failures (N below the failure limit), each within the
cooldown window of its predecessor, leaves exactly one row for that
identity; its count is N, its attempt time is the last failure's time, and
it is active at that time — the first failure created it with count 1 and
each later one incremented the stored maximum in place. -/
theorem consecutive_failures_single_record (cfg : Config) (db : DB) (req : Request)
    (t : Nat) (ts : List Nat)
    (hw : cfg.whitelist req.identity = false)
    (h0 : attemptsFor req.identity db.attempts = [])
    (hchain : chainOk cfg.cooldown_period t ts = true)
    (hlim : (t :: ts).length < cfg.failure_limit) :
    ∃ r, attemptsFor req.identity
          (processFailures cfg db req (t :: ts)).attempts = [r]
      ∧ r.failures_since_start = (t :: ts).length
      ∧ r.attempt_time = lastTime t ts
      ∧ isActive cfg.cooldown_period (lastTime t ts) r = true := by
  have hstep := step_create_attemptsFor cfg db req t hw h0
  have hchain2 : chainOk cfg.cooldown_period
      (newAccessAttempt req 1 t).attempt_time ts = true := hchain
  rcases processFailures_invariant cfg req hw ts
      (user_login_failed cfg db (some req) t).1 (newAccessAttempt req 1 t)
      hstep Nat.one_pos hchain2
    with ⟨r2, hr2, hcount, htime⟩
  have hat : (newAccessAttempt req 1 t).attempt_time = t := rfl
  rw [hat] at htime
  refine ⟨r2, ?_, ?_, htime, ?_⟩
  · simpa [processFailures] using hr2
  · rw [hcount]
    simp [newAccessAttempt, List.length_cons]
    omega
  · unfold isActive
    rw [htime]
    simp

/-- C3 witness: two failures at times 1 and 2 with limit 3 leave exactly
one row for `k` with count 2 at time 2. -/
theorem consecutive_failures_single_record_witness :
    (cfgPlain.whitelist reqK.identity = false
      ∧ attemptsFor reqK.identity ([] : List AccessAttempt) = []
      ∧ chainOk cfgPlain.cooldown_period 1 [2] = true
      ∧ ([1, 2] : List Nat).length < cfgPlain.failure_limit)
    ∧ ∃ r, attemptsFor reqK.identity
          (processFailures cfgPlain { attempts := [], access_logs := [] } reqK
            (1 :: [2])).attempts = [r]
      ∧ r.failures_since_start = ((1 : Nat) :: [2]).length
      ∧ r.attempt_time = lastTime 1 [2]
      ∧ isActive cfgPlain.cooldown_period (lastTime 1 [2]) r = true :=
  ⟨⟨by decide, by decide, by decide, by decide⟩,
   consecutive_failures_single_record cfgPlain { attempts := [], access_logs := [] }
     reqK 1 [2] (by decide) (by decide) (by decide) (by decide)⟩

/-- C6 counterexample: the claim says only the count, the attempt time and
the GET/POST context change on update, but updating the row for identity
`k` with a later event carrying a different `http_accept` and `path_info`
overwrites both stored fields with the later event's values. -/
theorem update_overwrites_accept_path_counterexample :
    (user_login_failed cfgPlain { attempts := [attemptK], access_logs := [] }
        (some reqK2) 1).1.attempts.map (fun r => r.http_accept)
      = ["application/json"]
    ∧ [attemptK].map (fun r => r.http_accept) = ["text/html"]
    ∧ (user_login_failed cfgPlain { attempts := [attemptK], access_logs := [] }
        (some reqK2) 1).1.attempts.map (fun r => r.path_info)
      = ["/login2"]
    ∧ [attemptK].map (fun r => r.path_info) = ["/login"] := by
  decide

/-- C6 (amended): when a failure updates an existing active row, the stored
username, IP address, user agent and identity keep the original row's
values; the failure count becomes the new count and the attempt time the
new event's time; the GET/POST context accumulates by appending; and the
`http_accept` and `path_info` fields are overwritten with the later
event's values. -/
theorem update_field_effects (cfg : Config) (db : DB) (req : Request) (t n : Nat)
    (hw : cfg.whitelist req.identity = false)
    (hpos : 0 < get_failures req.identity cfg.cooldown_period t db.attempts)
    (hn : n = 1 + get_failures req.identity cfg.cooldown_period t db.attempts)
    (a : AccessAttempt)
    (ha : a ∈ clean_expired_user_attempts cfg.cooldown_period t db.attempts)
    (hmatch : (a.identity == req.identity && isActive cfg.cooldown_period t a) = true) :
    updateAccessAttempt req n t a ∈ (user_login_failed cfg db (some req) t).1.attempts
    ∧ (updateAccessAttempt req n t a).username = a.username
    ∧ (updateAccessAttempt req n t a).ip_address = a.ip_address
    ∧ (updateAccessAttempt req n t a).user_agent = a.user_agent
    ∧ (updateAccessAttempt req n t a).identity = a.identity
    ∧ (updateAccessAttempt req n t a).failures_since_start = n
    ∧ (updateAccessAttempt req n t a).attempt_time = t
    ∧ (updateAccessAttempt req n t a).get_data
        = a.get_data ++ separator ++ req.get_data
    ∧ (updateAccessAttempt req n t a).post_data
        = a.post_data ++ separator ++ req.post_data
    ∧ (updateAccessAttempt req n t a).http_accept = req.http_accept
    ∧ (updateAccessAttempt req n t a).path_info = req.path_info := by
  refine ⟨?_, rfl, rfl, rfl, rfl, rfl, rfl, rfl, rfl, rfl, rfl⟩
  rw [step_update_attempts cfg db req t hw hpos, ← hn]
  have hmem := List.mem_map_of_mem
    (fun r =>
      if r.identity == req.identity && isActive cfg.cooldown_period t r then
        updateAccessAttempt req n t r
      else r) ha
  have heq : (fun r =>
      if r.identity == req.identity && isActive cfg.cooldown_period t r then
        updateAccessAttempt req n t r
      else r) a = updateAccessAttempt req n t a := by
    simp [hmatch]
  rw [heq] at hmem
  exact hmem

/-- C6 witness: updating the row for `k` with the metadata-varying request
at time 1 keeps the original username/IP/agent and overwrites accept and
path. -/
theorem update_field_effects_witness :
    (cfgPlain.whitelist reqK2.identity = false
      ∧ 0 < get_failures reqK2.identity cfgPlain.cooldown_period 1 [attemptK]
      ∧ (2 : Nat) = 1 + get_failures reqK2.identity cfgPlain.cooldown_period 1 [attemptK]
      ∧ attemptK ∈ clean_expired_user_attempts cfgPlain.cooldown_period 1 [attemptK]
      ∧ (attemptK.identity == reqK2.identity
          && isActive cfgPlain.cooldown_period 1 attemptK) = true)
    ∧ updateAccessAttempt reqK2 2 1 attemptK
        ∈ (user_login_failed cfgPlain { attempts := [attemptK], access_logs := [] }
            (some reqK2) 1).1.attempts
    ∧ (updateAccessAttempt reqK2 2 1 attemptK).username = attemptK.username
    ∧ (updateAccessAttempt reqK2 2 1 attemptK).http_accept = reqK2.http_accept :=
  ⟨⟨by decide, by decide, by decide, by decide, by decide⟩,
   (update_field_effects cfgPlain { attempts := [attemptK], access_logs := [] }
      reqK2 1 2 (by decide) (by decide) (by decide) attemptK (by decide) (by decide)).1,
   rfl, rfl⟩

/-- C7: with `reset_on_success` enabled, a successful login deletes the
identity's attempt rows, reports how many were cleared, and a later
failure for that identity starts a fresh row with count 1 and outcome
`recorded`. -/
theorem reset_on_success_then_fresh (cfg : Config) (db : DB) (req : Request)
    (t t2 : Nat)
    (hreset : cfg.reset_on_success = true)
    (hw : cfg.whitelist req.identity = false)
    (hlim : 1 < cfg.failure_limit) :
    (user_logged_in cfg db req t).2
      = some (attemptsFor req.identity
          (clean_expired_user_attempts cfg.cooldown_period t db.attempts)).length
    ∧ attemptsFor req.identity (user_logged_in cfg db req t).1.attempts = []
    ∧ (user_login_failed cfg (user_logged_in cfg db req t).1 (some req) t2).2
        = (LoginResult.recorded, none)
    ∧ attemptsFor req.identity
        (user_login_failed cfg (user_logged_in cfg db req t).1 (some req) t2).1.attempts
      = [newAccessAttempt req 1 t2] := by
  have hatt : (user_logged_in cfg db req t).1.attempts
      = (clean_expired_user_attempts cfg.cooldown_period t db.attempts).filter
          (fun r => !(r.identity == req.identity)) := by
    simp [user_logged_in, hreset, reset_user_attempts]
  have h0 : attemptsFor req.identity (user_logged_in cfg db req t).1.attempts = [] := by
    rw [hatt, attemptsFor]
    exact filter_not_filter _ _
  have hgf : get_failures req.identity cfg.cooldown_period t2
      (user_logged_in cfg db req t).1.attempts = 0 := by
    rw [get_failures, get_user_attempts_eq_filter, h0]
    rfl
  refine ⟨?_, h0, ?_, ?_⟩
  · simp [user_logged_in, hreset, reset_user_attempts, attemptsFor]
  · rw [user_login_failed_result cfg _ req t2 hw, hgf, if_neg (by omega)]
  · exact step_create_attemptsFor cfg _ req t2 hw h0

/-- C7 witness: identity `k` holds 2 failures; a success at time 1 clears
that one row, and a failure at time 2 records a fresh row with count 1. -/
theorem reset_on_success_then_fresh_witness :
    (cfgPlain.reset_on_success = true ∧ cfgPlain.whitelist reqK.identity = false
      ∧ 1 < cfgPlain.failure_limit)
    ∧ ((user_logged_in cfgPlain
          { attempts := [{ attemptK with failures_since_start := 2 }],
            access_logs := [] } reqK 1).2
        = some (attemptsFor reqK.identity
            (clean_expired_user_attempts cfgPlain.cooldown_period 1
              [{ attemptK with failures_since_start := 2 }])).length
      ∧ attemptsFor reqK.identity
          (user_logged_in cfgPlain
            { attempts := [{ attemptK with failures_since_start := 2 }],
              access_logs := [] } reqK 1).1.attempts = []
      ∧ (user_login_failed cfgPlain
          (user_logged_in cfgPlain
            { attempts := [{ attemptK with failures_since_start := 2 }],
              access_logs := [] } reqK 1).1 (some reqK) 2).2
          = (LoginResult.recorded, none)
      ∧ attemptsFor reqK.identity
          (user_login_failed cfgPlain
            (user_logged_in cfgPlain
              { attempts := [{ attemptK with failures_since_start := 2 }],
                access_logs := [] } reqK 1).1 (some reqK) 2).1.attempts
        = [newAccessAttempt reqK 1 2]) :=
  ⟨⟨by decide, by decide, by decide⟩,
   reset_on_success_then_fresh cfgPlain
     { attempts := [{ attemptK with failures_since_start := 2 }], access_logs := [] }
     reqK 1 2 (by decide) (by decide) (by decide)⟩

/-- C9 counterexample: with two open access-log rows for user `u`, a
logout stamps the end-time on BOTH rows, not only on the most recent one,
so the claim that only the most recent open row is stamped fails. -/
theorem logout_stamps_all_open_counterexample :
    (user_logged_out cfgPlain dbLogs "u" 5).access_logs.map (fun e => e.logout_time)
      = [some 5, some 5]
    ∧ dbLogs.access_logs.map (fun e => e.logout_time) = [none, none]
    ∧ logOpenOld.attempt_time < logOpenNew.attempt_time := by
  decide

/-- C9 (amended): when a username is known and access logging is enabled, a
logout stamps the end-time on EVERY open access-log row for that username,
leaving rows of other users or already-closed rows unchanged; with no
username, or with access logging disabled, the access history is left
unchanged. -/
theorem logout_stamps_open_logs (cfg : Config) (db : DB) (uname : String) (t : Nat)
    (e : AccessLog) (he : e ∈ db.access_logs) :
    (¬ uname = "" → cfg.disable_access_log = false →
      (e.username = uname → e.logout_time = none →
        { e with logout_time := some t } ∈ (user_logged_out cfg db uname t).access_logs)
      ∧ (¬ (e.username = uname ∧ e.logout_time = none) →
        e ∈ (user_logged_out cfg db uname t).access_logs))
    ∧ (uname = "" ∨ cfg.disable_access_log = true →
      (user_logged_out cfg db uname t).access_logs = db.access_logs) := by
  constructor
  · intro huser hdis
    have hcond : ((uname != "") && !cfg.disable_access_log) = true := by
      simp [hdis, huser]
    have hlogs : (user_logged_out cfg db uname t).access_logs
        = db.access_logs.map (fun e =>
            if e.username == uname && e.logout_time.isNone then
              { e with logout_time := some t }
            else e) := by
      simp [user_logged_out, hcond]
    constructor
    · intro hu hl
      rw [hlogs]
      have hmem := List.mem_map_of_mem
        (fun e =>
          if e.username == uname && e.logout_time.isNone then
            { e with logout_time := some t }
          else e) he
      have heq : (fun e =>
          if e.username == uname && e.logout_time.isNone then
            { e with logout_time := some t }
          else e) e = { e with logout_time := some t } := by
        simp [hu, hl]
      rw [heq] at hmem
      exact hmem
    · intro hne
      rw [hlogs]
      have hmem := List.mem_map_of_mem
        (fun e =>
          if e.username == uname && e.logout_time.isNone then
            { e with logout_time := some t }
          else e) he
      have hb : (e.username == uname && e.logout_time.isNone) = false := by
        cases hb2 : (e.username == uname && e.logout_time.isNone) with
        | false => rfl
        | true =>
          exfalso
          apply hne
          simpa [Option.isNone_iff_eq_none] using hb2
      have heq : (fun e =>
          if e.username == uname && e.logout_time.isNone then
            { e with logout_time := some t }
          else e) e = e := by
        simp [hb]
      rw [heq] at hmem
      exact hmem
  · intro hdis2
    have hcond : ((uname != "") && !cfg.disable_access_log) = false := by
      rcases hdis2 with h | h <;> simp [h]
    simp [user_logged_out, hcond]

/-- C9 witness: logging out user `u` at time 5 stamps the older open row
as well. -/
theorem logout_stamps_open_logs_witness :
    logOpenOld ∈ dbLogs.access_logs
    ∧ { logOpenOld with logout_time := some 5 }
        ∈ (user_logged_out cfgPlain dbLogs "u" 5).access_logs :=
  ⟨by decide,
   ((logout_stamps_open_logs cfgPlain dbLogs "u" 5 logOpenOld (by decide)).1
     (by decide) (by decide)).1 rfl rfl⟩

end Axes
